import Mathlib

/-!
Shallow embedding of the dinatra request-dispatch core (`src/mod.ts`):
route-table lookup (`App.handle` / `App.respond`), body parsing by
content type, static-file fallback (`App.respondStatic`), and the serve
loop's error normalization (`App.serve`).

External collaborators that live outside `src/mod.ts`
(`parseURLSearchParams` from params.ts, `JSON.parse`, `TextDecoder`,
`detectedContentType` from mime.ts) are abstracted as fields of an `Env`
structure; filesystem `stat` is abstracted as a field of `FS`. The fixed
error-code → message table of errors.ts is not under src/ and is
modelled from the spec.
-/

set_option autoImplicit false

namespace Dinatra

/-- JS-object / `Map` model: association list with insertion order; `set`
overwrites in place, `get` returns the stored value. -/
abbrev JsMap (α : Type) (β : Type) : Type := List (α × β)

/-- `m.get(k)` on a JS `Map` / property read on an object. -/
def jsGet {α β : Type} [DecidableEq α] (m : JsMap α β) (k : α) : Option β :=
  match m with
  | [] => none
  | (k2, v) :: rest => if k2 = k then some v else jsGet rest k

/-- `m.set(k, v)` / property assignment: overwrite in place keeping the
insertion position, else append. -/
def jsSet {α β : Type} [DecidableEq α] (m : JsMap α β) (k : α) (v : β) : JsMap α β :=
  match m with
  | [] => [(k, v)]
  | (k2, v2) :: rest => if k2 = k then (k, v) :: rest else (k2, v2) :: jsSet rest k v

/-- `Object.assign(target, src)` where `src` is given by its own
enumerable entries in order: fold `jsSet` over them. -/
def jsAssign {α β : Type} [DecidableEq α] (target : JsMap α β) (src : List (α × β)) : JsMap α β :=
  src.foldl (fun acc kv => jsSet acc kv.1 kv.2) target

/-- Whitespace recognized by JavaScript `String.prototype.trim`
(WhiteSpace and LineTerminator code points). -/
def isJsWhitespace (c : Char) : Bool :=
  c = ' ' || c = '\t' || c = '\n' || c = '\r' ||
  c = '\x0b' || c = '\x0c' || c = ' ' || c = ' ' ||
  (' ' ≤ c && c ≤ ' ') ||
  c = ' ' || c = ' ' || c = ' ' || c = ' ' ||
  c = '　' || c = '﻿'

/-- JavaScript `s.trim()`. -/
def jsTrim (s : String) : String :=
  String.mk (((s.toList.dropWhile isJsWhitespace).reverse.dropWhile isJsWhitespace).reverse)

/-- Line terminators, which `.` in a JavaScript regex does not match. -/
def isLineTerm (c : Char) : Bool :=
  c = '\n' || c = '\r' || c = ' ' || c = ' '

/-- Core of `url.split(/\?(.+)/)` followed by destructuring the first two
elements: scan for the first `?` that is followed by at least one
non-line-terminator character; the capture is the maximal run of
non-line-terminator characters after that `?`. A `?` with nothing (or
only a line terminator) after it does not start a match and stays in
the prefix. -/
def splitTargetGo : List Char → List Char × Option (List Char)
  | [] => ([], none)
  | c :: rest =>
    if c = '?' then
      match rest with
      | [] => ([c], none)
      | d :: _ =>
        if isLineTerm d then
          let (p, s) := splitTargetGo rest
          (c :: p, s)
        else
          ([], some (rest.takeWhile (fun x => !isLineTerm x)))
    else
      let (p, s) := splitTargetGo rest
      (c :: p, s)

/-- `const [path, search] = req.url.split(/\?(.+)/)` (mod.ts line 156).
`search` is `none` when the regex found no match (JS `undefined`). -/
def splitTarget (url : String) : String × Option String :=
  let (p, s) := splitTargetGo url.toList
  (String.mk p, s.map String.mk)

/-- The `Method` enum of handler.ts (GET, POST, PUT, PATCH, DELETE,
OPTIONS, LINK, UNLINK), in declaration order. -/
inductive Method where
  | GET | POST | PUT | PATCH | DELETE | OPTIONS | LINK | UNLINK
deriving DecidableEq, Repr

/-- The string value of a `Method` enum member (equal to its name). -/
def methodName : Method → String
  | .GET => "GET"
  | .POST => "POST"
  | .PUT => "PUT"
  | .PATCH => "PATCH"
  | .DELETE => "DELETE"
  | .OPTIONS => "OPTIONS"
  | .LINK => "LINK"
  | .UNLINK => "UNLINK"

/-- A parameter value: a string from URL-encoded parsing, or a JSON
scalar from a parsed JSON body. -/
inductive PVal where
  | str (s : String)
  | num (n : Int)
  | bool (b : Bool)
  | null
deriving DecidableEq, Repr

/-- `Params`: flat string-keyed mapping, created fresh per request. -/
abbrev Params : Type := JsMap String PVal

/-- `Context` passed to a handler: exactly `{ path, method, params }`
(mod.ts line 131); `method` is the raw request-method string that was
cast to `Method`. The raw body is not a field. -/
structure Context where
  path : String
  method : String
  params : Params
deriving DecidableEq, Repr

/-- A response body: a plain string, or an open lazily-read file handle
(the result of `Deno.open`), identified by the path it was opened on. -/
inductive Body where
  | str (s : String)
  | file (path : String)
deriving DecidableEq, Repr

/-- The `Response` union of response.ts as used in mod.ts: a full
`[status, headers, body]` triple or a `[status, body]` shorthand. -/
inductive Response where
  | full (status : Int) (headers : JsMap String String) (body : Body)
  | short (status : Int) (body : String)
deriving DecidableEq, Repr

/-- A thrown JS value, as discriminated by `typeof err === 'number'` in
the serve loop: a number, or anything else (carrying a description that
never reaches the client). -/
inductive Thrown where
  | num (n : Int)
  | other (desc : String)
deriving DecidableEq, Repr

/-- Result of invoking a handler (after awaiting, when asynchronous):
a `Response`, or a thrown/rejected value. -/
inductive HRes where
  | ok (r : Response)
  | thrown (t : Thrown)

/-- A user handler: `Context → Response` (asynchronous results are
modelled post-await). -/
abbrev Handler : Type := Context → HRes

/-- `HandlerMap = Map<string, Map<string, Handler>>` keyed by method
string, then by exact path string. -/
abbrev HandlerMap : Type := JsMap String (JsMap String Handler)

/-- A route registration `{ path, method, handler }` from handler.ts. -/
structure HandlerConfig where
  path : String
  method : Method
  handler : Handler

/-- An inbound request, restricted to the fields mod.ts reads: the raw
target `url`, the method string, the `content-type` header (none when
absent), and the raw body bytes. -/
structure Req where
  url : String
  method : String
  contentType : Option String
  body : List Nat

/-- The `ErrorCode` numeric enum of errors.ts. Modelled from the spec:
errors.ts is not under src/; the spec fixes a closed set of HTTP status
integers, at minimum 400 Bad Request, 404 Not Found, 500 Internal
Server Error. -/
def ErrorCode.BadRequest : Int := 400

/-- Modelled from the spec: the Not-Found member of the closed error
code set of errors.ts (not under src/). -/
def ErrorCode.NotFound : Int := 404

/-- Modelled from the spec: the Internal-Server-Error member of the
closed error code set of errors.ts (not under src/). -/
def ErrorCode.InternalServerError : Int := 500

/-- Modelled from the spec: the closed set of recognized error-code
integers of errors.ts (not under src/). -/
def recognizedCodes : List Int :=
  [ErrorCode.BadRequest, ErrorCode.NotFound, ErrorCode.InternalServerError]

/-- Modelled from the spec: `getErrorMessage` of errors.ts (not under
src/), the fixed status → human-readable-message table. -/
def getErrorMessage (status : Int) : String :=
  if status = ErrorCode.BadRequest then "Bad Request"
  else if status = ErrorCode.NotFound then "Not Found"
  else if status = ErrorCode.InternalServerError then "Internal Server Error"
  else ""

/-- External collaborators of mod.ts, abstracted: `parseURLSearchParams`
(params.ts), `JSON.parse` (returning the own enumerable entries that
`Object.assign` would copy, or `none` on a parse failure),
`TextDecoder(charset).decode` on the body bytes, and
`detectedContentType` (mime.ts). -/
structure Env where
  parseQS : String → List (String × PVal)
  jsonParse : String → Option (List (String × PVal))
  decode : String → List Nat → String
  mime : String → List (String × String)

/-- JavaScript `s.split(sep)` for a single-character separator: always
at least one piece; a separator at either end yields an empty piece. -/
def splitOnChar (sep : Char) : List Char → List (List Char)
  | [] => [[]]
  | c :: rest =>
    let r := splitOnChar sep rest
    if c = sep then [] :: r
    else
      match r with
      | [] => [[c]]
      | h :: t => (c :: h) :: t

/-- `req.headers.get('content-type') || 'application/octet-stream'`
(mod.ts lines 98-99): a missing or empty (falsy) header falls back to
the octet-stream default. -/
def rawCTOf (req : Req) : String :=
  match req.contentType with
  | none => "application/octet-stream"
  | some s => if s = "" then "application/octet-stream" else s

/-- `rawContentType.split(';').map(s => s.trim())` (mod.ts lines 100-102). -/
def ctParts (req : Req) : List String :=
  (splitOnChar ';' (rawCTOf req).toList).map (fun cs => jsTrim (String.mk cs))

/-- The base content-type token: the first element of the split
(destructured as `contentType`). `split` always returns at least one
element, so the default is never used. -/
def baseCT (req : Req) : String :=
  (ctParts req).headD ""

/-- The type-parameter object built by the `reduce` at mod.ts lines
103-107: each remaining segment is split at `=`; the key is the first
piece and the value the second (JS `undefined`, here `none`, when there
is no `=`); assignment overwrites earlier keys. -/
def typeParamsOf (req : Req) : JsMap String (Option String) :=
  (ctParts req).tail.foldl
    (fun acc curr =>
      let kv := splitOnChar '=' curr.toList
      jsSet acc (String.mk (kv.headD [])) (kv[1]?.map String.mk))
    []

/-- `typeParams['charset'] || 'utf-8'` (mod.ts line 109): a missing,
`undefined`, or empty charset value falls back to `utf-8`. The key is
looked up case-sensitively (the source notes the key is not
downcased). -/
def charsetOf (req : Req) : String :=
  match jsGet (typeParamsOf req) "charset" with
  | some (some v) => if v = "" then "utf-8" else v
  | _ => "utf-8"

/-- `decoder.decode(await req.body())` (mod.ts line 110): the full body
bytes decoded as text with the selected charset. -/
def decodedBodyOf (env : Env) (req : Req) : String :=
  env.decode (charsetOf req) req.body

/-- The params computation of `App.respond` (mod.ts lines 92-129): for
GET, parse the query string when present and non-empty; otherwise read
and decode the body and branch on the base content-type token.
`application/json` parse failure throws `ErrorCode.BadRequest`;
`application/octet-stream` and unrecognized tokens leave params
empty. -/
def computeParams (env : Env) (method : String) (search : Option String) (req : Req) :
    Except Thrown Params :=
  if method = "GET" then
    .ok (match search with
         | none => []
         | some s => if s = "" then [] else jsAssign [] (env.parseQS s))
  else
    let base := baseCT req
    let decoded := decodedBodyOf env req
    if base = "application/x-www-form-urlencoded" then
      .ok (jsAssign [] (env.parseQS decoded))
    else if base = "application/json" then
      match env.jsonParse decoded with
      | none => .error (.num ErrorCode.BadRequest)
      | some entries => .ok (jsAssign [] entries)
    else
      .ok []

/-- Outcome of `App.respond`, instrumented with the handler invocation
it performed: `invoked` records exactly which handler was applied to
which context (none when no handler ran), and `res` is the returned
`Response`, `none` for a route miss, or a thrown value. -/
structure DOut where
  invoked : Option (Handler × Context)
  res : Except Thrown (Option Response)

/-- `App.respond` (mod.ts lines 76-137): look up the inner map for the
method string, then the handler for the exact path; compute params; and
invoke the handler on `{ path, method, params }`. -/
def respond (env : Env) (hm : HandlerMap) (path : String) (search : Option String)
    (method : String) (req : Req) : DOut :=
  match jsGet hm method with
  | none => ⟨none, .ok none⟩
  | some m =>
    match jsGet m path with
    | none => ⟨none, .ok none⟩
    | some handler =>
      match computeParams env method search req with
      | .error t => ⟨none, .error t⟩
      | .ok params =>
        let ctx : Context := ⟨path, method, params⟩
        match handler ctx with
        | .ok r => ⟨some (handler, ctx), .ok (some r)⟩
        | .thrown t => ⟨some (handler, ctx), .error t⟩

/-- `lookup = handlerMap.get(method)?.get(path)`: the route-table lookup
performed by `App.respond`, byte-for-byte on both keys. -/
def lookupHandler (hm : HandlerMap) (method path : String) : Option Handler :=
  match jsGet hm method with
  | none => none
  | some m => jsGet m path

/-- The `App` constructor's route table (mod.ts lines 40-42): one empty
inner map per `Method` enum key, in declaration order. -/
def initHandlerMap : HandlerMap :=
  [(methodName .GET, []), (methodName .POST, []), (methodName .PUT, []),
   (methodName .PATCH, []), (methodName .DELETE, []), (methodName .OPTIONS, []),
   (methodName .LINK, []), (methodName .UNLINK, [])]

/-- One step of `App.handle` (mod.ts line 141):
`handlerMap.get(method).set(path, handler)`. The `none` branch is
unreachable for a table initialized by the constructor, where every
method key is present. -/
def handleOne (hm : HandlerMap) (c : HandlerConfig) : HandlerMap :=
  match jsGet hm (methodName c.method) with
  | none => hm
  | some m => jsSet hm (methodName c.method) (jsSet m c.path c.handler)

/-- `App.handle` (mod.ts lines 139-143) over a list of configs. -/
def handle (hm : HandlerMap) (cs : List HandlerConfig) : HandlerMap :=
  cs.foldl handleOne hm

/-- `Deno.FileInfo` as used by mod.ts: `isDirectory()`, `isFile()`,
`len`. -/
structure FileInfo where
  isDirectory : Bool
  isFile : Bool
  len : Nat
deriving DecidableEq, Repr

/-- The filesystem as seen through `Deno.stat`: `none` models a stat
that threw (including not-found). -/
structure FS where
  stat : String → Option FileInfo

/-- `App.respondStatic` (mod.ts lines 46-73): stat `publicDir + path`;
a stat failure leaves `fileInfo` unset and falls through to `null`. If
the target is a directory, re-stat `path + "/index.html"`, a failure
there yielding `null` with no further fallback. A resolved regular file
produces `[200, {'Content-Length': len, ...detectedContentType(p)},
open(p)]`. -/
def respondStatic (env : Env) (fs : FS) (publicDir path : String) : Option Response :=
  let staticFilePath := publicDir ++ path
  match fs.stat staticFilePath with
  | none => none
  | some fileInfo =>
    if fileInfo.isDirectory then
      let staticFilePath2 := staticFilePath ++ "/index.html"
      match fs.stat staticFilePath2 with
      | none => none
      | some fileInfo2 =>
        if fileInfo2.isFile then
          some (.full 200
            (jsAssign [("Content-Length", toString fileInfo2.len)] (env.mime staticFilePath2))
            (.file staticFilePath2))
        else none
    else if fileInfo.isFile then
      some (.full 200
        (jsAssign [("Content-Length", toString fileInfo.len)] (env.mime staticFilePath))
        (.file staticFilePath))
    else none

/-- What the serve loop does for one request: the final response and
whether `console.error` logged the failure server-side. -/
structure ServeOut where
  response : Response
  logged : Bool
deriving Repr

/-- One iteration of the `App.serve` loop (mod.ts lines 150-174) for a
single request. When `req.url` is falsy, `throw ErrorCode.NotFound`
executes OUTSIDE the try block, so the exception escapes the loop: no
response is produced, modelled as `none`. Otherwise the target is
split, `respond` is tried, then the static fallback when enabled; a
missing result throws `ErrorCode.NotFound` inside the try; the catch
turns a thrown number into that status with its table message, and
logs any other thrown value and renders 500. -/
def handleReq (env : Env) (fs : FS) (hm : HandlerMap) (staticEnabled : Bool)
    (publicDir : String) (req : Req) : Option ServeOut :=
  if req.url = "" then
    none
  else
    let ps := splitTarget req.url
    let d := respond env hm ps.1 ps.2 req.method req
    let attempt : Except Thrown Response :=
      match d.res with
      | .error t => .error t
      | .ok (some r) => .ok r
      | .ok none =>
        if staticEnabled then
          match respondStatic env fs publicDir ps.1 with
          | some r => .ok r
          | none => .error (.num ErrorCode.NotFound)
        else
          .error (.num ErrorCode.NotFound)
    match attempt with
    | .ok r => some ⟨r, false⟩
    | .error (.num n) => some ⟨.short n (getErrorMessage n), false⟩
    | .error (.other _) =>
      some ⟨.short ErrorCode.InternalServerError
              (getErrorMessage ErrorCode.InternalServerError), true⟩

/-- The `for await (const req of this.server)` loop of `App.serve`: the
requests are handled in arrival order; an exception escaping an
iteration terminates the loop, dropping all later requests. -/
def serveAll (env : Env) (fs : FS) (hm : HandlerMap) (staticEnabled : Bool)
    (publicDir : String) : List Req → List ServeOut
  | [] => []
  | r :: rest =>
    match handleReq env fs hm staticEnabled publicDir r with
    | none => []
    | some out => out :: serveAll env fs hm staticEnabled publicDir rest

/-- The split as the spec's words describe it (§4.2 step 1): path is
everything before the first `?` and search everything after it, search
being present whenever the url contains a `?`. Stated only for
comparison with `splitTarget`, which embeds the source. -/
def specSplitTarget (url : String) : String × Option String :=
  if url.toList.contains '?' then
    (String.mk (url.toList.takeWhile (fun c => c != '?')),
     some (String.mk ((url.toList.dropWhile (fun c => c != '?')).tail)))
  else (url, none)

/-- A filesystem with no reachable files: every stat throws. -/
def fsEmpty : FS := ⟨fun _ => none⟩

/-- Collaborator instance for concrete evaluations: empty query parses,
always-failing JSON parse, a decoder returning the empty string, no
MIME headers. -/
def envW : Env := ⟨fun _ => [], fun _ => none, fun _ _ => "", fun _ => []⟩

/-- Concrete handler returning `[200, "hello"]` (the §8 scenario). -/
def h0 : Handler := fun _ => .ok (.short 200 "hello")

/-- Route table with `h0` registered at `GET /hi`. -/
def hmW : HandlerMap := handle initHandlerMap [⟨"/hi", .GET, h0⟩]

/-- The request `GET /hi` with no query string, no content-type, no
body. -/
def reqW : Req := ⟨"/hi", "GET", none, []⟩

section Lemmas

variable {α β : Type} [DecidableEq α]

theorem jsGet_jsSet_ne (m : JsMap α β) (k k2 : α) (v : β) (h : k2 ≠ k) :
    jsGet (jsSet m k2 v) k = jsGet m k := by
  induction m with
  | nil => simp [jsGet, jsSet, h]
  | cons p rest ih =>
    obtain ⟨k3, v3⟩ := p
    by_cases h3 : k3 = k2
    · subst h3
      simp [jsSet, jsGet, h]
    · simp only [jsSet, if_neg h3, jsGet]
      by_cases h4 : k3 = k
      · simp [h4]
      · simp [h4, ih]

theorem jsGet_foldl_jsSet (src : List (α × β)) (init : JsMap α β) (k : α)
    (h : ∀ p ∈ src, p.1 ≠ k) :
    jsGet (src.foldl (fun acc kv => jsSet acc kv.1 kv.2) init) k = jsGet init k := by
  induction src generalizing init with
  | nil => rfl
  | cons p rest ih =>
    rw [List.foldl_cons]
    rw [ih _ (fun q hq => h q (List.mem_cons_of_mem _ hq))]
    exact jsGet_jsSet_ne init k p.1 p.2 (h p (List.mem_cons_self _ _))

theorem jsGet_jsAssign_single (src : List (α × β)) (k : α) (v : β)
    (h : ∀ p ∈ src, p.1 ≠ k) :
    jsGet (jsAssign [(k, v)] src) k = some v := by
  unfold jsAssign
  rw [jsGet_foldl_jsSet src [(k, v)] k h]
  simp [jsGet]

end Lemmas

theorem takeWhile_all {α : Type} (p : α → Bool) (l : List α) (h : ∀ c ∈ l, p c = true) :
    l.takeWhile p = l := by
  induction l with
  | nil => rfl
  | cons c rest ih =>
    rw [List.takeWhile_cons, if_pos (h c (List.mem_cons_self _ _))]
    rw [ih (fun d hd => h d (List.mem_cons_of_mem _ hd))]

theorem splitTargetGo_no_q (l : List Char) (h : ∀ c ∈ l, c ≠ '?') :
    splitTargetGo l = (l, none) := by
  induction l with
  | nil => rfl
  | cons c rest ih =>
    have hc : c ≠ '?' := h c (List.mem_cons_self _ _)
    simp only [splitTargetGo, if_neg hc,
      ih (fun d hd => h d (List.mem_cons_of_mem _ hd))]

theorem splitTargetGo_q (a b : List Char) (ha : ∀ c ∈ a, c ≠ '?')
    (hb : ∀ c ∈ b, isLineTerm c = false) (hbne : b ≠ []) :
    splitTargetGo (a ++ '?' :: b) = (a, some b) := by
  induction a with
  | nil =>
    cases b with
    | nil => exact absurd rfl hbne
    | cons d rest =>
      have hd : isLineTerm d = false := hb d (List.mem_cons_self _ _)
      have hall : List.takeWhile (fun x => !isLineTerm x) (d :: rest) = d :: rest :=
        takeWhile_all _ _ (fun c hc => by simp [hb c hc])
      simp [splitTargetGo, hd, hall]
  | cons c arest ih =>
    have hc : c ≠ '?' := ha c (List.mem_cons_self _ _)
    have ih2 := ih (fun d hd => ha d (List.mem_cons_of_mem _ hd))
    simp [splitTargetGo, hc, List.append_eq, ih2]

theorem splitTarget_no_q (u : String) (h : ∀ c ∈ u.toList, c ≠ '?') :
    splitTarget u = (u, none) := by
  unfold splitTarget
  rw [splitTargetGo_no_q u.toList h]
  rfl

theorem splitTarget_q (a b : String) (ha : ∀ c ∈ a.toList, c ≠ '?')
    (hb : ∀ c ∈ b.toList, isLineTerm c = false) (hbne : b ≠ "") :
    splitTarget (a ++ "?" ++ b) = (a, some b) := by
  unfold splitTarget
  have htl : (a ++ "?" ++ b).toList = a.toList ++ '?' :: b.toList := by
    show (a ++ "?" ++ b).data = a.data ++ '?' :: b.data
    simp [String.data_append]
  have hbl : b.toList ≠ [] := fun hemp => hbne (String.ext hemp)
  rw [htl, splitTargetGo_q a.toList b.toList ha hb hbl]
  rfl

theorem respond_none_of_no_route (env : Env) (hm : HandlerMap) (path : String)
    (search : Option String) (method : String) (req : Req)
    (hlook : lookupHandler hm method path = none) :
    respond env hm path search method req = ⟨none, .ok none⟩ := by
  unfold lookupHandler at hlook
  unfold respond
  cases hmm : jsGet hm method with
  | none => simp only [hmm]
  | some m =>
    simp only [hmm] at hlook
    simp only [hmm, hlook]

theorem respond_parse_error (env : Env) (hm : HandlerMap) (path : String)
    (search : Option String) (method : String) (req : Req) (h : Handler) (t : Thrown)
    (hlook : lookupHandler hm method path = some h)
    (hcp : computeParams env method search req = .error t) :
    respond env hm path search method req = ⟨none, .error t⟩ := by
  unfold lookupHandler at hlook
  unfold respond
  cases hmm : jsGet hm method with
  | none => simp only [hmm] at hlook; exact Option.noConfusion hlook
  | some m =>
    simp only [hmm] at hlook
    simp only [hmm, hlook, hcp]

theorem respond_invoke_ok (env : Env) (hm : HandlerMap) (path : String)
    (search : Option String) (method : String) (req : Req) (h : Handler)
    (ps : Params) (r : Response)
    (hlook : lookupHandler hm method path = some h)
    (hcp : computeParams env method search req = .ok ps)
    (hh : h ⟨path, method, ps⟩ = .ok r) :
    respond env hm path search method req =
      ⟨some (h, ⟨path, method, ps⟩), .ok (some r)⟩ := by
  unfold lookupHandler at hlook
  unfold respond
  cases hmm : jsGet hm method with
  | none => simp only [hmm] at hlook; exact Option.noConfusion hlook
  | some m =>
    simp only [hmm] at hlook
    simp only [hmm, hlook, hcp, hh]

theorem respond_invoke_thrown (env : Env) (hm : HandlerMap) (path : String)
    (search : Option String) (method : String) (req : Req) (h : Handler)
    (ps : Params) (t : Thrown)
    (hlook : lookupHandler hm method path = some h)
    (hcp : computeParams env method search req = .ok ps)
    (hh : h ⟨path, method, ps⟩ = .thrown t) :
    respond env hm path search method req =
      ⟨some (h, ⟨path, method, ps⟩), .error t⟩ := by
  unfold lookupHandler at hlook
  unfold respond
  cases hmm : jsGet hm method with
  | none => simp only [hmm] at hlook; exact Option.noConfusion hlook
  | some m =>
    simp only [hmm] at hlook
    simp only [hmm, hlook, hcp, hh]

/-- C8, counterexample: the claim says the dispatcher splits the raw
target at the first `?`, path being everything before it. For the
target `/a?` (a trailing `?` with nothing after it) the regex
`/\?(.+)/` finds no match, so the code keeps the `?` in the path
(`/a?`) and leaves search absent, while the claimed split would give
path `/a` and search `""`. -/
theorem C8_counterexample_trailing_question :
    splitTarget "/a?" = ("/a?", none) ∧
    specSplitTarget "/a?" = ("/a", some "") ∧
    (("/a?", none) : String × Option String) ≠ ("/a", some "") := by
  exact ⟨by decide, by decide, by decide⟩

/-- C8 (amended): the dispatcher splits the raw target at the first `?`
that is followed by at least one character — a trailing `?` with
nothing after it stays in the path and search is absent. For
line-terminator-free targets: a target `a ++ "?" ++ b` with no `?` in
`a` and `b` nonempty splits into path `a` and search `b`; a target
with no `?` keeps the whole string as path with no search. For GET, a
present nonempty search is parsed as URL-encoded parameters, and a GET
request with no query string yields empty params. -/
theorem C8_amended_split (env : Env) (req : Req) :
    (∀ a b : String, (∀ c ∈ a.toList, c ≠ '?') →
      (∀ c ∈ b.toList, isLineTerm c = false) → b ≠ "" →
      splitTarget (a ++ "?" ++ b) = (a, some b)) ∧
    (∀ u : String, (∀ c ∈ u.toList, c ≠ '?') → splitTarget u = (u, none)) ∧
    (∀ s : String, s ≠ "" →
      computeParams env "GET" (some s) req = .ok (jsAssign [] (env.parseQS s))) ∧
    computeParams env "GET" none req = .ok [] := by
  refine ⟨fun a b ha hb hbne => splitTarget_q a b ha hb hbne,
          fun u hu => splitTarget_no_q u hu, fun s hs => ?_, ?_⟩
  · simp [computeParams, hs]
  · simp [computeParams]

/-- Witness for C8 (amended) at the concrete target `/hi?a=1` and a
concrete GET parse. -/
theorem C8_amended_split_witness :
    splitTarget ("/hi" ++ "?" ++ "a=1") = ("/hi", some "a=1") ∧
    computeParams envW "GET" (some "a=1") reqW = .ok (jsAssign [] (envW.parseQS "a=1")) :=
  ⟨(C8_amended_split envW reqW).1 "/hi" "a=1" (by decide) (by decide) (by decide),
   (C8_amended_split envW reqW).2.2.1 "a=1" (by decide)⟩

/-- C1: when `(method, path)` is registered with handler `h` (route
lookup is byte-for-byte on both strings), dispatching any request with
exactly that method and path invokes `h` — and only `h` — with a
`Context` of exactly that path, that method, and the params produced by
the §4.2 parsing (`computeParams`). -/
theorem C1_exact_match_dispatch (env : Env) (hm : HandlerMap) (path : String)
    (search : Option String) (method : String) (req : Req) (h : Handler)
    (hlook : lookupHandler hm method path = some h) :
    (∀ ps, computeParams env method search req = .ok ps →
      (respond env hm path search method req).invoked = some (h, ⟨path, method, ps⟩)) ∧
    (∀ g c, (respond env hm path search method req).invoked = some (g, c) →
      g = h ∧ c.path = path ∧ c.method = method) := by
  constructor
  · intro ps hps
    cases hh : h ⟨path, method, ps⟩ with
    | ok r => rw [respond_invoke_ok env hm path search method req h ps r hlook hps hh]
    | thrown t => rw [respond_invoke_thrown env hm path search method req h ps t hlook hps hh]
  · intro g c hin
    cases hcp : computeParams env method search req with
    | error t =>
      rw [respond_parse_error env hm path search method req h t hlook hcp] at hin
      exact Option.noConfusion hin
    | ok ps =>
      cases hh : h ⟨path, method, ps⟩ with
      | ok r =>
        rw [respond_invoke_ok env hm path search method req h ps r hlook hcp hh] at hin
        simp only [Option.some.injEq, Prod.mk.injEq] at hin
        obtain ⟨hg, hc⟩ := hin
        exact ⟨hg.symm, by rw [← hc], by rw [← hc]⟩
      | thrown t =>
        rw [respond_invoke_thrown env hm path search method req h ps t hlook hcp hh] at hin
        simp only [Option.some.injEq, Prod.mk.injEq] at hin
        obtain ⟨hg, hc⟩ := hin
        exact ⟨hg.symm, by rw [← hc], by rw [← hc]⟩

/-- Witness for C1: the §8 scenario `GET /hi` against the table with
`h0` registered at `(GET, /hi)` invokes `h0` on
`{path := "/hi", method := "GET", params := []}`. -/
theorem C1_exact_match_dispatch_witness :
    (respond envW hmW "/hi" none "GET" reqW).invoked = some (h0, ⟨"/hi", "GET", []⟩) :=
  (C1_exact_match_dispatch envW hmW "/hi" none "GET" reqW h0 rfl).1 [] rfl

/-- C9: for non-GET requests the body is decoded with the charset named
by the (case-sensitively keyed, `=`-split) `charset` parameter of the
content-type header, defaulting to `utf-8`; the branch is chosen by the
base token (first `;`-segment, trimmed, parameters ignored, compared
case-sensitively): url-encoded bodies are parsed into params, while
`application/octet-stream` or any unrecognized token leaves params
empty — and the handler's `Context` carries no raw-body field at all. -/
theorem C9_nonget_body_parsing (env : Env) (method : String) (search : Option String)
    (req : Req) (hne : method ≠ "GET") :
    (baseCT req = "application/x-www-form-urlencoded" →
      computeParams env method search req =
        .ok (jsAssign [] (env.parseQS (env.decode (charsetOf req) req.body)))) ∧
    (baseCT req ≠ "application/x-www-form-urlencoded" →
     baseCT req ≠ "application/json" →
      computeParams env method search req = .ok []) ∧
    (jsGet (typeParamsOf req) "charset" = none → charsetOf req = "utf-8") ∧
    (∀ v, jsGet (typeParamsOf req) "charset" = some (some v) → v ≠ "" →
      charsetOf req = v) := by
  refine ⟨fun hb => ?_, fun hb1 hb2 => ?_, fun hn => ?_, fun v hv hvne => ?_⟩
  · simp only [computeParams, if_neg hne, if_pos hb, decodedBodyOf]
  · simp only [computeParams, if_neg hne, if_neg hb1, if_neg hb2]
  · simp only [charsetOf, hn]
  · simp only [charsetOf, hv, if_neg hvne]

/-- Non-GET request with an uppercase JSON content type: the
case-sensitive comparison recognizes neither branch. -/
def reqUp : Req := ⟨"/x", "POST", some "Application/JSON", [1, 2]⟩

/-- Witness for C9: the uppercase token falls to the unrecognized branch
(params empty) and the absent charset parameter defaults to utf-8. -/
theorem C9_nonget_body_parsing_witness :
    computeParams envW "POST" none reqUp = .ok [] ∧ charsetOf reqUp = "utf-8" :=
  ⟨(C9_nonget_body_parsing envW "POST" none reqUp (by decide)).2.1
      (by decide) (by decide),
   (C9_nonget_body_parsing envW "POST" none reqUp (by decide)).2.2.1 (by decide)⟩

theorem respond_req_congr (env : Env) (hm : HandlerMap) (path : String)
    (search : Option String) (method : String) (r1 r2 : Req)
    (hcp : computeParams env method search r1 = computeParams env method search r2) :
    respond env hm path search method r1 = respond env hm path search method r2 := by
  unfold respond
  rw [hcp]

/-- C10: a matched non-GET request with no content-type header at all is
treated exactly as if its content type were `application/octet-stream`:
the whole dispatch is unchanged, the body is decoded with utf-8, params
stay empty, and the matched handler is still invoked (no error). -/
theorem C10_missing_content_type (env : Env) (hm : HandlerMap) (path : String)
    (search : Option String) (u mtd : String) (b : List Nat) (h : Handler)
    (hne : mtd ≠ "GET")
    (hlook : lookupHandler hm mtd path = some h) :
    respond env hm path search mtd ⟨u, mtd, none, b⟩ =
      respond env hm path search mtd ⟨u, mtd, some "application/octet-stream", b⟩ ∧
    charsetOf ⟨u, mtd, none, b⟩ = "utf-8" ∧
    computeParams env mtd search ⟨u, mtd, none, b⟩ = .ok [] ∧
    (respond env hm path search mtd ⟨u, mtd, none, b⟩).invoked =
      some (h, ⟨path, mtd, []⟩) := by
  have hb1 : baseCT ⟨u, mtd, none, b⟩ = "application/octet-stream" := rfl
  have hb2 : baseCT ⟨u, mtd, some "application/octet-stream", b⟩ =
      "application/octet-stream" := rfl
  have hcp1 : computeParams env mtd search ⟨u, mtd, none, b⟩ = .ok [] := by
    simp only [computeParams, if_neg hne, hb1]
    simp
  have hcp2 : computeParams env mtd search ⟨u, mtd, some "application/octet-stream", b⟩ =
      .ok [] := by
    simp only [computeParams, if_neg hne, hb2]
    simp
  refine ⟨respond_req_congr env hm path search mtd _ _ (hcp1.trans hcp2.symm), rfl, hcp1, ?_⟩
  cases hh : h ⟨path, mtd, []⟩ with
  | ok r => rw [respond_invoke_ok env hm path search mtd _ h [] r hlook hcp1 hh]
  | thrown t => rw [respond_invoke_thrown env hm path search mtd _ h [] t hlook hcp1 hh]

/-- Concrete handler for the POST fixtures. -/
def hp0 : Handler := fun _ => .ok (.short 201 "created")

/-- Route table with `hp0` registered at `POST /p`. -/
def hmP : HandlerMap := handle initHandlerMap [⟨"/p", .POST, hp0⟩]

/-- Witness for C10 at `POST /p` with no content-type header. -/
theorem C10_missing_content_type_witness :
    respond envW hmP "/p" none "POST" ⟨"/p", "POST", none, []⟩ =
      respond envW hmP "/p" none "POST" ⟨"/p", "POST", some "application/octet-stream", []⟩ ∧
    (respond envW hmP "/p" none "POST" ⟨"/p", "POST", none, []⟩).invoked =
      some (hp0, ⟨"/p", "POST", []⟩) :=
  ⟨(C10_missing_content_type envW hmP "/p" none "/p" "POST" [] hp0 (by decide) rfl).1,
   (C10_missing_content_type envW hmP "/p" none "/p" "POST" [] hp0 (by decide) rfl).2.2.2⟩

/-- C2: a matched non-GET request whose base content-type token is
`application/json` and whose decoded body fails to parse is aborted
before the handler runs (`invoked = none`), and the final response is
status 400 with the fixed Bad-Request message, whatever the handler
would have returned; the parse failure itself is never propagated (the
only thrown value is the `ErrorCode.BadRequest` number). -/
theorem C2_bad_json_aborts_with_400 (env : Env) (fs : FS) (hm : HandlerMap)
    (se : Bool) (pd : String) (req : Req) (h : Handler)
    (hurl : req.url ≠ "")
    (hne : req.method ≠ "GET")
    (hlook : lookupHandler hm req.method (splitTarget req.url).1 = some h)
    (hct : baseCT req = "application/json")
    (hjson : env.jsonParse (decodedBodyOf env req) = none) :
    handleReq env fs hm se pd req =
      some ⟨.short ErrorCode.BadRequest (getErrorMessage ErrorCode.BadRequest), false⟩ ∧
    (respond env hm (splitTarget req.url).1 (splitTarget req.url).2 req.method req).invoked
      = none := by
  have hb1 : baseCT req ≠ "application/x-www-form-urlencoded" := by
    rw [hct]; decide
  have hcp : computeParams env req.method (splitTarget req.url).2 req =
      .error (.num ErrorCode.BadRequest) := by
    simp only [computeParams, if_neg hne, if_neg hb1, if_pos hct, decodedBodyOf] at *
    simp only [hjson]
  have hresp := respond_parse_error env hm (splitTarget req.url).1 (splitTarget req.url).2
    req.method req h (.num ErrorCode.BadRequest) hlook hcp
  constructor
  · unfold handleReq
    rw [if_neg hurl]
    simp only [hresp]
  · rw [hresp]

/-- Route table with `h0` registered at `POST /j`. -/
def hmJ : HandlerMap := handle initHandlerMap [⟨"/j", .POST, h0⟩]

/-- A POST to `/j` declaring JSON with a body `envW.jsonParse` rejects. -/
def reqJ : Req := ⟨"/j", "POST", some "application/json", [123]⟩

/-- Witness for C2: the malformed-JSON POST gets 400 Bad Request. -/
theorem C2_bad_json_aborts_with_400_witness :
    handleReq envW fsEmpty hmJ true "public" reqJ =
      some ⟨.short 400 "Bad Request", false⟩ :=
  (C2_bad_json_aborts_with_400 envW fsEmpty hmJ true "public" reqJ h0
    (by decide) (by decide) rfl (by decide) rfl).1

/-- C3: a request matching no registered route, and for which the
static fallback resolves no file, gets status 404 with the fixed
Not-Found message (whether or not static serving is enabled). -/
theorem C3_no_route_no_file_404 (env : Env) (fs : FS) (hm : HandlerMap)
    (se : Bool) (pd : String) (req : Req)
    (hurl : req.url ≠ "")
    (hlook : lookupHandler hm req.method (splitTarget req.url).1 = none)
    (hstatic : respondStatic env fs pd (splitTarget req.url).1 = none) :
    handleReq env fs hm se pd req =
      some ⟨.short ErrorCode.NotFound (getErrorMessage ErrorCode.NotFound), false⟩ := by
  have hresp := respond_none_of_no_route env hm (splitTarget req.url).1
    (splitTarget req.url).2 req.method req hlook
  unfold handleReq
  rw [if_neg hurl]
  cases se with
  | true => simp [hresp, hstatic]
  | false => simp [hresp]

/-- Witness for C3: `GET /nope` against an empty route table and an
empty filesystem returns 404 Not Found. -/
theorem C3_no_route_no_file_404_witness :
    handleReq envW fsEmpty initHandlerMap true "public" ⟨"/nope", "GET", none, []⟩ =
      some ⟨.short 404 "Not Found", false⟩ :=
  C3_no_route_no_file_404 envW fsEmpty initHandlerMap true "public"
    ⟨"/nope", "GET", none, []⟩ (by decide) rfl rfl

/-- Handler that throws the number 999, which is not in the recognized
error-code set. -/
def hThrow999 : Handler := fun _ => .thrown (.num 999)

/-- Route table with `hThrow999` registered at `POST /t`. -/
def hm999 : HandlerMap := handle initHandlerMap [⟨"/t", .POST, hThrow999⟩]

/-- The request `POST /t`. -/
def req999 : Req := ⟨"/t", "POST", none, []⟩

/-- C4, counterexample: the claim says any raised value that is not an
integer from the recognized status-code set is normalized to 500 and
logged. But the catch checks only `typeof err === 'number'`: a handler
throwing 999 — outside the closed set — produces a response with
status 999 (message from the table: empty), not 500, and nothing is
logged. -/
theorem C4_counterexample_unrecognized_number :
    (999 : Int) ∉ recognizedCodes ∧
    handleReq envW fsEmpty hm999 true "public" req999 =
      some ⟨.short 999 (getErrorMessage 999), false⟩ ∧
    (999 : Int) ≠ 500 ∧
    getErrorMessage 999 = "" :=
  ⟨by decide, rfl, by decide, rfl⟩

/-- C4 (amended): any NUMBER raised during dispatch becomes a response
with exactly that number as status and the table-mapped message (the
fixed message for recognized codes), with no server-side log; any
non-number raised value is logged and normalized to 500 with the
generic message — the response is the same whatever the underlying
cause, which never appears in the body. -/
theorem C4_amended_error_normalization (env : Env) (fs : FS) (hm : HandlerMap)
    (se : Bool) (pd : String) (req : Req) (t : Thrown)
    (hurl : req.url ≠ "")
    (hthrow : (respond env hm (splitTarget req.url).1 (splitTarget req.url).2
        req.method req).res = .error t) :
    (∀ n, t = .num n →
      handleReq env fs hm se pd req = some ⟨.short n (getErrorMessage n), false⟩) ∧
    (∀ d, t = .other d →
      handleReq env fs hm se pd req =
        some ⟨.short ErrorCode.InternalServerError
                (getErrorMessage ErrorCode.InternalServerError), true⟩) := by
  constructor
  · intro n hn
    subst hn
    unfold handleReq
    rw [if_neg hurl]
    simp only [hthrow]
  · intro d hd
    subst hd
    unfold handleReq
    rw [if_neg hurl]
    simp only [hthrow]

/-- Handler that throws a non-number value. -/
def hBoom : Handler := fun _ => .thrown (.other "boom")

/-- Route table with `hBoom` registered at `POST /b`. -/
def hmBoom : HandlerMap := handle initHandlerMap [⟨"/b", .POST, hBoom⟩]

/-- The request `POST /b`. -/
def reqBoom : Req := ⟨"/b", "POST", none, []⟩

/-- Witness for C4 (amended): the non-number throw is logged and
rendered as 500 with the generic message; "boom" is not in the body. -/
theorem C4_amended_error_normalization_witness :
    handleReq envW fsEmpty hmBoom true "public" reqBoom =
      some ⟨.short 500 "Internal Server Error", true⟩ :=
  (C4_amended_error_normalization envW fsEmpty hmBoom true "public" reqBoom
    (.other "boom") (by decide) rfl).2 "boom" rfl

/-- C5: whenever the static fallback resolves a file, the resolved path
is the direct path or its `/index.html` extension, the stat'd target is
a regular file, and the response is status 200 with a `Content-Length`
header equal to the file's byte size, the Content-Type Resolver's
headers for the resolved path, and a body that is an open lazily-read
file handle (`Body.file`), not buffered bytes. The `Content-Length`
entry survives the header spread whenever the resolver (whose contract
is content-type headers only) does not itself emit a `Content-Length`
key. -/
theorem C5_static_file_success_shape (env : Env) (fs : FS) (pd path : String)
    (r : Response) (hres : respondStatic env fs pd path = some r) :
    ∃ p fi, fs.stat p = some fi ∧ fi.isFile = true ∧
      (p = pd ++ path ∨ p = (pd ++ path) ++ "/index.html") ∧
      r = .full 200 (jsAssign [("Content-Length", toString fi.len)] (env.mime p)) (.file p) ∧
      ((∀ q ∈ env.mime p, q.1 ≠ "Content-Length") →
        jsGet (jsAssign [("Content-Length", toString fi.len)] (env.mime p)) "Content-Length"
          = some (toString fi.len)) := by
  unfold respondStatic at hres
  simp only [] at hres
  cases h1 : fs.stat (pd ++ path) with
  | none => rw [h1] at hres; exact Option.noConfusion hres
  | some fi =>
    rw [h1] at hres
    simp only [] at hres
    by_cases hdir : fi.isDirectory = true
    · rw [if_pos hdir] at hres
      cases h2 : fs.stat ((pd ++ path) ++ "/index.html") with
      | none => rw [h2] at hres; exact Option.noConfusion hres
      | some fi2 =>
        rw [h2] at hres
        simp only [] at hres
        by_cases hf2 : fi2.isFile = true
        · rw [if_pos hf2] at hres
          refine ⟨(pd ++ path) ++ "/index.html", fi2, h2, hf2, Or.inr rfl, ?_, ?_⟩
          · exact (Option.some.injEq _ _ ▸ hres).symm
          · intro hq
            exact jsGet_jsAssign_single (env.mime _) _ _ hq
        · rw [if_neg hf2] at hres
          exact Option.noConfusion hres
    · rw [if_neg hdir] at hres
      by_cases hf : fi.isFile = true
      · rw [if_pos hf] at hres
        refine ⟨pd ++ path, fi, h1, hf, Or.inl rfl, ?_, ?_⟩
        · exact (Option.some.injEq _ _ ▸ hres).symm
        · intro hq
          exact jsGet_jsAssign_single (env.mime _) _ _ hq
      · rw [if_neg hf] at hres
        exact Option.noConfusion hres

/-- A filesystem containing exactly one regular file of 5 bytes at
`public/a.txt`. -/
def fsFile : FS :=
  ⟨fun p => if p = "public/a.txt" then some ⟨false, true, 5⟩ else none⟩

/-- Witness for C5: resolving `/a.txt` under `public` yields the
200/Content-Length-5/open-handle response. -/
theorem C5_static_file_success_shape_witness :
    ∃ p fi, fsFile.stat p = some fi ∧ fi.isFile = true ∧
      (p = "public" ++ "/a.txt" ∨ p = ("public" ++ "/a.txt") ++ "/index.html") ∧
      (Response.full 200 [("Content-Length", "5")] (.file "public/a.txt")) =
        .full 200 (jsAssign [("Content-Length", toString fi.len)] (envW.mime p)) (.file p) ∧
      ((∀ q ∈ envW.mime p, q.1 ≠ "Content-Length") →
        jsGet (jsAssign [("Content-Length", toString fi.len)] (envW.mime p)) "Content-Length"
          = some (toString fi.len)) :=
  C5_static_file_success_shape envW fsFile "public" "/a.txt"
    (.full 200 [("Content-Length", "5")] (.file "public/a.txt")) rfl

/-- C6: during static fallback, a failing stat on `publicDir + path`
yields "no file" (never an error), and when that stat names a
directory, a failing stat on `path + "/index.html"` likewise yields
"no file" with no further fallback — in the model `respondStatic`
returns `none`, which the serve loop turns into 404, never a thrown
filesystem error. -/
theorem C6_stat_failure_yields_no_file (env : Env) (fs : FS) (pd path : String) :
    (fs.stat (pd ++ path) = none → respondStatic env fs pd path = none) ∧
    (∀ fi, fs.stat (pd ++ path) = some fi → fi.isDirectory = true →
      fs.stat ((pd ++ path) ++ "/index.html") = none →
      respondStatic env fs pd path = none) := by
  constructor
  · intro h1
    unfold respondStatic
    simp only [h1]
  · intro fi h1 hdir h2
    unfold respondStatic
    simp only [h1, if_pos hdir, h2]

/-- Witness for C6: a stat failure on the empty filesystem resolves to
"no file". -/
theorem C6_stat_failure_yields_no_file_witness :
    respondStatic envW fsEmpty "public" "/missing" = none :=
  (C6_stat_failure_yields_no_file envW fsEmpty "public" "/missing").1 rfl

/-- C7: the claim says every request received by the serve loop gets
exactly one response and no internal failure can terminate the handling
of subsequent requests. But the `if (!req.url) throw ErrorCode.NotFound`
guard (mod.ts lines 153-155) sits OUTSIDE the try block: for a request
whose url is the empty string, the thrown 404 escapes the loop, the
request gets no response, and all later requests are dropped — while
the same later request alone is answered normally. -/
theorem C7_empty_url_kills_loop :
    serveAll envW fsEmpty hmW true "public" [⟨"", "GET", none, []⟩, reqW] = [] ∧
    handleReq envW fsEmpty hmW true "public" ⟨"", "GET", none, []⟩ = none ∧
    serveAll envW fsEmpty hmW true "public" [reqW] = [⟨.short 200 "hello", false⟩] :=
  ⟨rfl, rfl, rfl⟩

end Dinatra
